import Mathlib

/-!
Verification development for `helm-resources-checker.py`, a tool that resolves
the Helm release Secret for a (name, namespace, optional revision), decodes its
payload, extracts the declared resource identities from the manifest, and
reports which of them are live.

Shallow embedding conventions:
* Python `bytes` are `List Nat` (each entry a byte value `< 256` where it matters).
* Python `str` values are `String`, except where character-level manipulation
  is required (`secret_version`), where `List Char` mirrors the Python string.
* External library calls with fully specified behaviour (`base64.b64decode`,
  `base64` encoding used to build test payloads) are modelled concretely.
* External library calls whose behaviour is an opaque algorithm
  (`gzip.decompress`, `json.loads`) are parameters of the decoding pipeline,
  gathered in the `Codec` structure; theorems assume only the facts about them
  that the source relies on, and those assumptions are discharged on concrete
  stand-ins in the witnesses.
* `yaml.safe_load_all` is likewise external: `manifest_objects` is embedded as
  a function of the already-parsed document list (Python values are `PyVal`).
-/

namespace HelmChecker

/-! ## Python value model -/

/-- Model of the dynamic Python values produced by `json.loads` /
`yaml.safe_load` on the documents this program consumes: `None`, booleans,
integers, strings, lists and string-keyed mappings. -/
inductive PyVal where
  | none  : PyVal
  | bool  : Bool → PyVal
  | int   : Int → PyVal
  | str   : String → PyVal
  | list  : List PyVal → PyVal
  | dict  : List (String × PyVal) → PyVal

/-- Python truthiness (`if x:`) for the modelled values: `None`, `False`,
`0`, `""` and empty containers are falsy, everything else truthy. -/
def pyTruthy : PyVal → Bool
  | PyVal.none => false
  | PyVal.bool b => b
  | PyVal.int n => decide (n ≠ 0)
  | PyVal.str s => decide (s ≠ "")
  | PyVal.list xs => !xs.isEmpty
  | PyVal.dict kvs => !kvs.isEmpty

/-- Python `dict` lookup (`d[k]` / `d.get(k)` without default): first binding
of the key in the association list (keys are unique in a real `dict`). -/
def dict_get {β : Type} : List (String × β) → String → Option β
  | [], _ => Option.none
  | (k2, v) :: rest, k => if k2 = k then Option.some v else dict_get rest k

/-! ## `base64` model

`base64.b64decode(s)` (default `validate=False`) discards bytes outside the
standard alphabet, then decodes groups of four symbols, accepting `=` padding
only as the final one or two symbols; a leftover partial group raises
`binascii.Error` (modelled as `Option.none`).  `base64.b64encode` is the
standard encoder; it is used to build the payloads the claims feed in. -/

/-- The six-bit value `v < 64` to its base64 alphabet byte. -/
def encB64 (v : Nat) : Nat :=
  if v < 26 then 65 + v
  else if v < 52 then 71 + v
  else if v < 62 then v - 4
  else if v = 62 then 43
  else 47

/-- Byte is in the standard base64 alphabet (`A-Z a-z 0-9 + /`). -/
def isB64c (c : Nat) : Bool :=
  decide ((65 ≤ c ∧ c ≤ 90) ∨ (97 ≤ c ∧ c ≤ 122) ∨ (48 ≤ c ∧ c ≤ 57) ∨ c = 43 ∨ c = 47)

/-- Alphabet byte back to its six-bit value (total; only meaningful on
alphabet bytes). -/
def decB64 (c : Nat) : Nat :=
  if 65 ≤ c ∧ c ≤ 90 then c - 65
  else if 97 ≤ c ∧ c ≤ 122 then c - 71
  else if 48 ≤ c ∧ c ≤ 57 then c + 4
  else if c = 43 then 62
  else 63

/-- Bytes kept by the lax `b64decode` scan: alphabet bytes and `=` (61). -/
def b64keep (c : Nat) : Bool := isB64c c || decide (c = 61)

/-- Decode a cleaned symbol stream four symbols at a time; `=` padding is
accepted only at the very end. A leftover group of 1-3 symbols is an error. -/
def b64quads : List Nat → Option (List Nat)
  | [] => Option.some []
  | a :: b :: c :: d :: r =>
    if a = 61 ∨ b = 61 then Option.none
    else if c = 61 then
      if d = 61 ∧ r = [] then Option.some [decB64 a * 4 + decB64 b / 16]
      else Option.none
    else if d = 61 then
      if r = [] then
        Option.some [decB64 a * 4 + decB64 b / 16, decB64 b % 16 * 16 + decB64 c / 4]
      else Option.none
    else
      match b64quads r with
      | Option.some rest =>
          Option.some ((decB64 a * 4 + decB64 b / 16) ::
            (decB64 b % 16 * 16 + decB64 c / 4) ::
            (decB64 c % 4 * 64 + decB64 d) :: rest)
      | Option.none => Option.none
  | _ :: _ => Option.none

/-- `base64.b64decode` with `validate=False`: drop foreign bytes, then decode. -/
def b64decode (bs : List Nat) : Option (List Nat) :=
  b64quads (bs.filter b64keep)

/-- `base64.b64encode`: three bytes to four symbols, with `=` padding. -/
def b64encode : List Nat → List Nat
  | x :: y :: z :: r =>
      encB64 (x / 4) :: encB64 (x % 4 * 16 + y / 16) ::
        encB64 (y % 16 * 4 + z / 64) :: encB64 (z % 64) :: b64encode r
  | [x, y] => [encB64 (x / 4), encB64 (x % 4 * 16 + y / 16), encB64 (y % 16 * 4), 61]
  | [x] => [encB64 (x / 4), encB64 (x % 4 * 16), 61, 61]
  | [] => []

/-! ## UTF-8 validity

`json.loads` accepts `bytes` by decoding them with the detected text encoding
(UTF-8 unless the input starts with a BOM or null-byte pattern) before
parsing; invalid UTF-8 raises `UnicodeDecodeError`, which is *not* a
`json.JSONDecodeError`.  `validUtf8` is the standard UTF-8 acceptance check
(continuation ranges, overlong and surrogate exclusions, max U+10FFFF). -/

/-- State-machine UTF-8 acceptance: `need` continuation bytes are still
expected, the next of which must lie in `[lo, hi]` (subsequent ones in
`[0x80, 0xBF]`).  Lead bytes `C2-DF` open one continuation, `E0-EF` two and
`F0-F4` three, with the standard restricted ranges on the first continuation
byte after `E0`, `ED`, `F0` and `F4` (excluding overlong forms, surrogates
and code points above U+10FFFF). -/
def utf8Aux : List Nat → Nat → Nat → Nat → Bool
  | [], need, _, _ => decide (need = 0)
  | b :: l, 0, _, _ =>
    if b < 128 then utf8Aux l 0 0 0
    else if b < 194 then false
    else if b < 224 then utf8Aux l 1 128 191
    else if b = 224 then utf8Aux l 2 160 191
    else if b = 237 then utf8Aux l 2 128 159
    else if b < 240 then utf8Aux l 2 128 191
    else if b = 240 then utf8Aux l 3 144 191
    else if b = 244 then utf8Aux l 3 128 143
    else if b < 245 then utf8Aux l 3 128 191
    else false
  | b :: l, need + 1, lo, hi =>
    if lo ≤ b ∧ b ≤ hi then utf8Aux l need 128 191 else false

/-- Standard UTF-8 validity of a byte sequence. -/
def validUtf8 (l : List Nat) : Bool := utf8Aux l 0 0 0

/-! ## Payload decoding pipeline

`decode_release_payload` (source lines 84-94) and `_try_decompress` (lines
75-81).  The two opaque library calls are parameters:

* `gzipDecompress` models `gzip.decompress`.  Its failures split into the
  exception types the source distinguishes: `errCaught` for
  `OSError`/`EOFError`/`gzip.BadGzipFile` (swallowed by the
  `except ... pass` in `_try_decompress`) and `errUncaught` for other
  failures (e.g. `zlib.error` on a corrupt deflate stream), which propagate.
* `jsonLoads` models `json.loads` on bytes: `ok` a parsed value, `errDecode`
  a `json.JSONDecodeError` (the only exception the first `try` catches), and
  `errOther` any other exception, e.g. the `UnicodeDecodeError` raised while
  decoding invalid-UTF-8 bytes before parsing even starts. -/

/-- Outcome of `gzip.decompress`. -/
inductive GzRes where
  | ok (out : List Nat)
  | errCaught
  | errUncaught

/-- Outcome of `json.loads` on bytes. -/
inductive JsonRes where
  | ok (v : PyVal)
  | errDecode
  | errOther

/-- Python exceptions that can escape or be produced by the embedded
fragments. `runtimeError` is the `RuntimeError("Unable to decode Helm release
payload (unsupported format)")`; `attributeError` the `AttributeError` from
calling `.get` on a non-mapping. -/
inductive PyExc where
  | binasciiError
  | zlibError
  | unicodeError
  | runtimeError
  | attributeError
deriving DecidableEq

/-- The two opaque codec library calls used by `decode_release_payload`. -/
structure Codec where
  gzipDecompress : List Nat → GzRes
  jsonLoads : List Nat → JsonRes

/-- `_try_decompress(data)`: if the data starts with the gzip magic bytes
`0x1f 0x8b`, try to decompress; a caught failure falls through to returning
the data unchanged, an uncaught one propagates. -/
def try_decompress (gz : List Nat → GzRes) (data : List Nat) : Except PyExc (List Nat) :=
  if data.take 2 = [31, 139] then
    match gz data with
    | GzRes.ok out => Except.ok out
    | GzRes.errCaught => Except.ok data
    | GzRes.errUncaught => Except.error PyExc.zlibError
  else Except.ok data

/-- `decode_release_payload(encoded)`: base64-decode, conditionally
decompress, parse as JSON; on `json.JSONDecodeError` retry one extra round of
(base64-decode, conditional decompress, parse) on the same bytes, any failure
of which is converted to the `RuntimeError`. -/
def decode_release_payload (c : Codec) (encoded : List Nat) : Except PyExc PyVal :=
  match b64decode encoded with
  | Option.none => Except.error PyExc.binasciiError
  | Option.some data =>
    match try_decompress c.gzipDecompress data with
    | Except.error e => Except.error e
    | Except.ok raw =>
      match c.jsonLoads raw with
      | JsonRes.ok v => Except.ok v
      | JsonRes.errOther => Except.error PyExc.unicodeError
      | JsonRes.errDecode =>
        match b64decode raw with
        | Option.none => Except.error PyExc.runtimeError
        | Option.some d2 =>
          match try_decompress c.gzipDecompress d2 with
          | Except.error _ => Except.error PyExc.runtimeError
          | Except.ok raw2 =>
            match c.jsonLoads raw2 with
            | JsonRes.ok v => Except.ok v
            | JsonRes.errDecode => Except.error PyExc.runtimeError
            | JsonRes.errOther => Except.error PyExc.runtimeError

/-- The structured record `{"version": N, "manifest": M}` that a Helm release
payload serializes. -/
def relRec (N : Int) (M : String) : PyVal :=
  PyVal.dict [("version", PyVal.int N), ("manifest", PyVal.str M)]

/-! ## Revision resolution (`secret_version`, `find_release_secret`)

Python strings are modelled character-exactly as `List Char` here because
`secret_version` does character-level work (`PurePath(...).suffix`,
`str.lstrip`, `int(...)`).  The modelled domain is ASCII names and labels
(`str.isdigit` is `Char.isDigit`; `int()` is parsed without underscore
separators, which no reachable input uses). -/

/-- `str.isdigit()`: non-empty and every character a digit. -/
def pyIsDigit (s : String) : Bool := !s.isEmpty && s.toList.all Char.isDigit

/-- Numeric value of a digit string (used for `int()` on digit strings). -/
def digitsVal (ds : List Char) : Nat :=
  ds.foldl (fun n c => n * 10 + (c.toNat - 48)) 0

/-- Whitespace stripped by `int(str)`. -/
def pyIntSpace (c : Char) : Bool := decide (c = ' ' ∨ c = '\t' ∨ c = '\n' ∨ c = '\r')

/-- `int(s)` for a text argument: strip whitespace, optional sign, digits;
anything else raises `ValueError` (modelled as `none`). -/
def pyInt (s : List Char) : Option Int :=
  match ((s.dropWhile pyIntSpace).reverse.dropWhile pyIntSpace).reverse with
  | [] => Option.none
  | c :: ds =>
    if c = '-' then
      if !ds.isEmpty && ds.all Char.isDigit then Option.some (-(digitsVal ds : Int))
      else Option.none
    else if c = '+' then
      if !ds.isEmpty && ds.all Char.isDigit then Option.some ((digitsVal ds : Int))
      else Option.none
    else
      if (c :: ds).all Char.isDigit then Option.some ((digitsVal (c :: ds) : Int))
      else Option.none

/-- Final path component (`PurePath(...).name`): text after the last `/`.
Secret names contain no `/`, so this is normally the whole string. -/
def lastComponent (s : List Char) : List Char :=
  s.foldl (fun acc c => if c = '/' then [] else acc ++ [c]) []

/-- `PurePath(s).suffix`: the part of the final component from its last dot
to the end, dot included, provided that dot is neither the first nor the
last character of the component; otherwise the empty string. -/
def pureSuffix (s : List Char) : List Char :=
  let n := lastComponent s
  let rev := n.reverse
  let afterRev := rev.takeWhile (fun c => !(c = '.' : Bool))
  match rev.dropWhile (fun c => !(c = '.' : Bool)) with
  | [] => []
  | _ :: beforeRev =>
    if beforeRev.isEmpty then []
    else if afterRev.isEmpty then []
    else '.' :: afterRev.reverse

/-- `Secret.metadata`: the name and labels of a release Secret. -/
structure SecretMeta where
  name : String
  labels : List (String × String)
deriving DecidableEq

/-- A Helm release Secret (only the metadata the resolver consults). -/
structure Secret where
  metadata : SecretMeta
deriving DecidableEq

/-- `secret_version(sec)` (source lines 57-64): an all-digits `version` label
wins; otherwise `int(PurePath(name).suffix.lstrip("v"))`, any `ValueError`
giving `0`. -/
def secret_version (sec : Secret) : Int :=
  let lbl := (dict_get sec.metadata.labels "version").getD ""
  if pyIsDigit lbl then (digitsVal lbl.toList : Int)
  else
    match pyInt ((pureSuffix sec.metadata.name.toList).dropWhile (fun c => c = 'v')) with
    | Option.some n => n
    | Option.none => 0

/-- One step of Python `max(..., key=...)`: keep the current best `b` unless
the new item `a` has a strictly larger key (so the first maximum wins). -/
def maxStep {α : Type} (key : α → Int) (b a : α) : α :=
  if key b < key a then a else b

/-- Python `max(xs, key=...)`; `none` on the empty list (which raises, but
`find_release_secret` only calls it on a non-empty list). -/
def pymax {α : Type} (key : α → Int) : List α → Option α
  | [] => Option.none
  | x :: xs => Option.some (xs.foldl (maxStep key) x)

/-- `find_release_secret` (source lines 39-72) after the store query: from
the candidate list, pick the latest (max `secret_version`) when no revision
is requested, else the first candidate with exactly the requested revision;
`none` models the `None`/NotFound result. -/
def find_release_secret (candidates : List Secret) (revision : Option Int) : Option Secret :=
  if candidates.isEmpty then Option.none
  else
    match revision with
    | Option.none => pymax secret_version candidates
    | Option.some r => candidates.find? (fun sec => secret_version sec == r)

/-! ## Manifest extraction (`manifest_objects`, source lines 97-108)

`yaml.safe_load_all` is the external parser; the embedding consumes the list
of parsed documents.  A document that is not a mapping is skipped; for a
mapping, `doc.get("metadata", {})` defaults only a *missing* key, so a
present non-mapping `metadata` value reaches `meta.get("name")` and raises
`AttributeError` (`.get` exists only on mappings). -/

/-- Resource identity tuple `(apiVersion, kind, namespace, name)` as yielded
by the source: the raw document values. -/
abbrev Ident := PyVal × PyVal × PyVal × PyVal

/-- Per-document body of the `manifest_objects` loop. -/
def docIdentity (default_ns : String) (doc : PyVal) : Except PyExc (Option Ident) :=
  match doc with
  | PyVal.dict kvs =>
    let api_ver := (dict_get kvs "apiVersion").getD PyVal.none
    let kind := (dict_get kvs "kind").getD PyVal.none
    let meta := (dict_get kvs "metadata").getD (PyVal.dict [])
    match meta with
    | PyVal.dict mkvs =>
      let name := (dict_get mkvs "name").getD PyVal.none
      let nsv := (dict_get mkvs "namespace").getD PyVal.none
      let ns := if pyTruthy nsv then nsv else PyVal.str default_ns
      if pyTruthy api_ver && pyTruthy kind && pyTruthy name then
        Except.ok (Option.some (api_ver, kind, ns, name))
      else Except.ok Option.none
    | _ => Except.error PyExc.attributeError
  | _ => Except.ok Option.none

/-- `manifest_objects(manifest_yaml, default_ns)` over the parsed documents:
collect the identities in order; an exception in any document aborts the
whole extraction (the generator is fully materialized by `sorted(...)` in
`main`). -/
def manifest_objects (docs : List PyVal) (default_ns : String) : Except PyExc (List Ident) :=
  match docs with
  | [] => Except.ok []
  | doc :: rest =>
    match docIdentity default_ns doc with
    | Except.error e => Except.error e
    | Except.ok o =>
      match manifest_objects rest default_ns with
      | Except.error e => Except.error e
      | Except.ok ids =>
        match o with
        | Option.some t => Except.ok (t :: ids)
        | Option.none => Except.ok ids

/-! ## Reporting loop (`main`, source lines 171-183)

The loop iterates `sorted(manifest_objects(...))`, printing one row per
identity with its live status, accumulating `exists_any`, and printing the
"none found live" warning when `exists_any` stays `False`.  `sorted` is
modelled by a stable insertion sort over an abstract comparison (a pure
reordering; the claims about the report are order-independent). -/

/-- Stable insertion of `a` into `l` under `le`. -/
def pyInsert {α : Type} (le : α → α → Bool) (a : α) : List α → List α
  | [] => [a]
  | b :: bs => if le a b then a :: b :: bs else b :: pyInsert le a bs

/-- `sorted(l)` under comparison `le` (stable insertion sort). -/
def pySorted {α : Type} (le : α → α → Bool) : List α → List α
  | [] => []
  | a :: rest => pyInsert le a (pySorted le rest)

/-- The report `main` produces from the declared identities and the
live-check `object_exists`: the printed rows `(identity, live)` in sorted
order, and whether the "none of the declared resources were found live"
warning is printed. -/
def main_report {α : Type} (le : α → α → Bool) (object_exists : α → Bool)
    (ids : List α) : List (α × Bool) × Bool :=
  let rows := (pySorted le ids).map (fun t => (t, object_exists t))
  let exists_any := (pySorted le ids).foldl (fun b t => b || object_exists t) false
  (rows, !exists_any)

/-! ## Concrete data for witnesses and counterexamples -/

/-- A release Secret with no numeric `version` label and the legacy
`...v7`-suffixed name; per the spec its resolved revision should be 7. -/
def c1secret : Secret :=
  ⟨⟨"sh.helm.release.v1.demo.v7", [("owner", "helm"), ("name", "demo")]⟩⟩

/-- Another unlabeled legacy-named Secret, for the C1 witness. -/
def c1secretB : Secret := ⟨⟨"demo.v3", [("owner", "helm")]⟩⟩

/-- Codec stand-in for the C2 witness.  Real behaviour at the touched
points: `gzip.decompress` fails with a caught exception type on the
truncated stream `1f 8b 00` (`EOFError`), and `json.loads` raises
`UnicodeDecodeError` (`errOther`) on any bytes starting `1f 8b` because they
are invalid UTF-8 (`validUtf8_magic`). -/
def c2codec : Codec where
  gzipDecompress := fun _ => GzRes.errCaught
  jsonLoads := fun bs => if bs.take 2 = [31, 139] then JsonRes.errOther else JsonRes.errDecode

/-- The bytes `json.dumps` would produce for a minimal release record
(`0` is valid JSON, so the stand-in parser accepting exactly it is honest). -/
def c4json : List Nat := [48]

/-- Codec stand-in for the C4 witness: parses exactly `c4json`, fails with
`JSONDecodeError` on anything else (the intermediate layers are base64 text,
which is not valid JSON); gzip is never consulted (no input has the magic). -/
def c4codec : Codec where
  gzipDecompress := fun _ => GzRes.errCaught
  jsonLoads := fun bs => if bs = c4json then JsonRes.ok (PyVal.int 0) else JsonRes.errDecode

/-- Serialized bytes of `{"version": 1, "manifest": "x"}` (ASCII JSON). -/
def c5bytes : List Nat := ("\x7b\"version\": 1, \"manifest\": \"x\"\x7d".toList).map Char.toNat

/-- A stand-in gzip-compressed form for the C5 witness (any bytes starting
with the gzip magic `1f 8b`). -/
def c5gzB : List Nat := [31, 139, 8, 0]

/-- Codec stand-in for the C5 witness: gzip inverts `c5gzB` to the JSON
bytes, and the parser parses exactly those bytes to the record. -/
def c5codec : Codec where
  gzipDecompress := fun bs => if bs = c5gzB then GzRes.ok c5bytes else GzRes.errCaught
  jsonLoads := fun bs => if bs = c5bytes then JsonRes.ok (relRec 1 "x") else JsonRes.errDecode

/-- Serializer stand-in for the C5 witness (`json.dumps` at the record). -/
def c5dumps : PyVal → List Nat := fun _ => c5bytes

/-- Candidate Secrets for the C6/C7 witnesses: versions 1 and 5 via labels. -/
def secV1 : Secret :=
  ⟨⟨"sh.helm.release.v1.demo.v1", [("owner", "helm"), ("name", "demo"), ("version", "1")]⟩⟩

/-- Second candidate, revision 5. -/
def secV5 : Secret :=
  ⟨⟨"sh.helm.release.v1.demo.v5", [("owner", "helm"), ("name", "demo"), ("version", "5")]⟩⟩

/-- A document whose `metadata` is a string, not a mapping. -/
def c3doc : PyVal :=
  PyVal.dict [("apiVersion", PyVal.str "v1"), ("kind", PyVal.str "ConfigMap"),
    ("metadata", PyVal.str "oops")]

/-- Well-formed ConfigMap document without a namespace. -/
def c8cmDoc : PyVal :=
  PyVal.dict [("apiVersion", PyVal.str "v1"), ("kind", PyVal.str "ConfigMap"),
    ("metadata", PyVal.dict [("name", PyVal.str "cm1")])]

/-- Document missing `kind`. -/
def c8noKindDoc : PyVal :=
  PyVal.dict [("apiVersion", PyVal.str "v1"),
    ("metadata", PyVal.dict [("name", PyVal.str "cm2")])]

/-- A malformed document: does not parse as a mapping (e.g. a stray scalar
between separators). -/
def c8badDoc : PyVal := PyVal.str "garbage"

/-- Well-formed Service document with an explicit namespace. -/
def c8svcDoc : PyVal :=
  PyVal.dict [("apiVersion", PyVal.str "v1"), ("kind", PyVal.str "Service"),
    ("metadata", PyVal.dict [("name", PyVal.str "svc1"), ("namespace", PyVal.str "prod")])]

/-- Well-formed document whose `metadata.namespace` is present but empty. -/
def c8emptyNsDoc : PyVal :=
  PyVal.dict [("apiVersion", PyVal.str "v1"), ("kind", PyVal.str "Secret"),
    ("metadata", PyVal.dict [("name", PyVal.str "s1"), ("namespace", PyVal.str "")])]

/-- A manifest document with full metadata missing (`metadata.name` absent),
yielding zero identities. -/
def c10docs : List PyVal :=
  [PyVal.dict [("apiVersion", PyVal.str "v1"), ("kind", PyVal.str "ConfigMap")]]

end HelmChecker

namespace HelmChecker

/-! ## base64 roundtrip lemmas -/

theorem decB64_encB64 : ∀ v, v < 64 → decB64 (encB64 v) = v := by decide

theorem encB64_isB64c : ∀ v, v < 64 → isB64c (encB64 v) = true := by decide

theorem encB64_ne_61 : ∀ v, v < 64 → encB64 v ≠ 61 := by decide

theorem b64keep_encB64 (v : Nat) (h : v < 64) : b64keep (encB64 v) = true := by
  unfold b64keep
  rw [encB64_isB64c v h]
  rfl

theorem filter_b64encode : ∀ (s : List Nat), (∀ b ∈ s, b < 256) →
    (b64encode s).filter b64keep = b64encode s
  | [], _ => rfl
  | [x], h => by
    have hx : x < 256 := h x (by simp)
    simp only [b64encode, List.filter]
    rw [b64keep_encB64 (x / 4) (by omega), b64keep_encB64 (x % 4 * 16) (by omega)]
    rfl
  | [x, y], h => by
    have hx : x < 256 := h x (by simp)
    have hy : y < 256 := h y (by simp)
    simp only [b64encode, List.filter]
    rw [b64keep_encB64 (x / 4) (by omega), b64keep_encB64 (x % 4 * 16 + y / 16) (by omega),
      b64keep_encB64 (y % 16 * 4) (by omega)]
    rfl
  | x :: y :: z :: r, h => by
    have hx : x < 256 := h x (by simp)
    have hy : y < 256 := h y (by simp)
    have hz : z < 256 := h z (by simp)
    have ih := filter_b64encode r (fun b hb => h b (by simp [hb]))
    simp only [b64encode, List.filter]
    rw [b64keep_encB64 (x / 4) (by omega), b64keep_encB64 (x % 4 * 16 + y / 16) (by omega),
      b64keep_encB64 (y % 16 * 4 + z / 64) (by omega), b64keep_encB64 (z % 64) (by omega)]
    simp only [List.filter] at ih
    rw [ih]

theorem b64quads_b64encode : ∀ (s : List Nat), (∀ b ∈ s, b < 256) →
    b64quads (b64encode s) = Option.some s
  | [], _ => rfl
  | [x], h => by
    have hx : x < 256 := h x (by simp)
    have h1 : x / 4 < 64 := by omega
    have h2 : x % 4 * 16 < 64 := by omega
    simp only [b64encode, b64quads]
    rw [if_neg (by
      rintro (hc | hc)
      · exact encB64_ne_61 _ h1 hc
      · exact encB64_ne_61 _ h2 hc)]
    rw [decB64_encB64 _ h1, decB64_encB64 _ h2]
    simp only [and_self, if_true, Option.some.injEq, List.cons.injEq, and_true]
    omega
  | [x, y], h => by
    have hx : x < 256 := h x (by simp)
    have hy : y < 256 := h y (by simp)
    have h1 : x / 4 < 64 := by omega
    have h2 : x % 4 * 16 + y / 16 < 64 := by omega
    have h3 : y % 16 * 4 < 64 := by omega
    simp only [b64encode, b64quads]
    rw [if_neg (by
      rintro (hc | hc)
      · exact encB64_ne_61 _ h1 hc
      · exact encB64_ne_61 _ h2 hc)]
    rw [if_neg (encB64_ne_61 _ h3)]
    rw [decB64_encB64 _ h1, decB64_encB64 _ h2, decB64_encB64 _ h3]
    simp only [if_true, Option.some.injEq, List.cons.injEq, and_true]
    constructor
    · omega
    · omega
  | x :: y :: z :: r, h => by
    have hx : x < 256 := h x (by simp)
    have hy : y < 256 := h y (by simp)
    have hz : z < 256 := h z (by simp)
    have h1 : x / 4 < 64 := by omega
    have h2 : x % 4 * 16 + y / 16 < 64 := by omega
    have h3 : y % 16 * 4 + z / 64 < 64 := by omega
    have h4 : z % 64 < 64 := by omega
    have ih := b64quads_b64encode r (fun b hb => h b (by simp [hb]))
    simp only [b64encode, b64quads]
    rw [if_neg (by
      rintro (hc | hc)
      · exact encB64_ne_61 _ h1 hc
      · exact encB64_ne_61 _ h2 hc)]
    rw [if_neg (encB64_ne_61 _ h3), if_neg (encB64_ne_61 _ h4)]
    rw [ih]
    rw [decB64_encB64 _ h1, decB64_encB64 _ h2, decB64_encB64 _ h3, decB64_encB64 _ h4]
    simp only [Option.some.injEq, List.cons.injEq, and_true]
    refine ⟨by omega, by omega, by omega⟩

/-- Decoding inverts encoding on genuine byte lists. -/
theorem b64decode_b64encode (s : List Nat) (h : ∀ b ∈ s, b < 256) :
    b64decode (b64encode s) = Option.some s := by
  unfold b64decode
  rw [filter_b64encode s h]
  exact b64quads_b64encode s h

end HelmChecker

namespace HelmChecker

/-! ## Helper lemmas -/

theorem validUtf8_magic (l : List Nat) : validUtf8 (31 :: 139 :: l) = false := rfl

theorem dropWhile_append_last {α : Type} (p : α → Bool) :
    ∀ (l : List α) (a : α), p a = false → ∃ u, (l ++ [a]).dropWhile p = u ++ [a]
  | [], a, h => ⟨[], by simp [List.dropWhile, h]⟩
  | b :: l, a, h => by
    by_cases hb : p b = true
    · obtain ⟨u, hu⟩ := dropWhile_append_last p l a h
      exact ⟨u, by simp [List.dropWhile_cons, hb, hu]⟩
    · exact ⟨b :: l, by simp [List.dropWhile_cons, hb]⟩

theorem pureSuffix_shape (s : List Char) :
    pureSuffix s = [] ∨ ∃ t, pureSuffix s = '.' :: t := by
  unfold pureSuffix
  dsimp only
  split
  · exact Or.inl rfl
  · split
    · exact Or.inl rfl
    · split
      · exact Or.inl rfl
      · exact Or.inr ⟨_, rfl⟩

theorem pyInt_dot_head (t : List Char) : pyInt ('.' :: t) = Option.none := by
  unfold pyInt
  rw [List.dropWhile_cons]
  rw [if_neg (by simp [pyIntSpace])]
  obtain ⟨u, hu⟩ := dropWhile_append_last pyIntSpace t.reverse '.' rfl
  rw [List.reverse_cons, hu, List.reverse_append]
  rfl

theorem secret_version_fallback_zero (sec : Secret)
    (h : pyIsDigit ((dict_get sec.metadata.labels "version").getD "") = false) :
    secret_version sec = 0 := by
  unfold secret_version
  rw [if_neg (by simp [h])]
  rcases pureSuffix_shape sec.metadata.name.toList with hs | ⟨t, hs⟩
  · rw [hs]
    rfl
  · rw [hs, List.dropWhile_cons, if_neg (by decide), pyInt_dot_head]

theorem key_le_maxStep_left {α : Type} (key : α → Int) (x y : α) :
    key x ≤ key (maxStep key x y) := by
  unfold maxStep
  split <;> omega

theorem key_le_maxStep_right {α : Type} (key : α → Int) (x y : α) :
    key y ≤ key (maxStep key x y) := by
  unfold maxStep
  split <;> omega

theorem maxStep_mem {α : Type} (key : α → Int) (x y : α) :
    maxStep key x y = x ∨ maxStep key x y = y := by
  unfold maxStep
  split
  · exact Or.inr rfl
  · exact Or.inl rfl

theorem foldl_maxStep_spec {α : Type} (key : α → Int) :
    ∀ (xs : List α) (x : α),
      xs.foldl (maxStep key) x ∈ x :: xs ∧
        ∀ t ∈ x :: xs, key t ≤ key (xs.foldl (maxStep key) x)
  | [], x => by simp
  | y :: ys, x => by
    have ih := foldl_maxStep_spec key ys (maxStep key x y)
    simp only [List.foldl_cons]
    constructor
    · rcases List.mem_cons.mp ih.1 with hm | hm
      · rw [hm]
        rcases maxStep_mem key x y with he | he <;> rw [he]
        · exact List.mem_cons_self _ _
        · exact List.mem_cons_of_mem _ (List.mem_cons_self _ _)
      · exact List.mem_cons_of_mem _ (List.mem_cons_of_mem _ hm)
    · intro t ht
      rcases List.mem_cons.mp ht with rfl | ht2
      · calc key t ≤ key (maxStep key t y) := key_le_maxStep_left key t y
          _ ≤ _ := ih.2 _ (List.mem_cons_self _ _)
      rcases List.mem_cons.mp ht2 with rfl | ht3
      · calc key t ≤ key (maxStep key x t) := key_le_maxStep_right key x t
          _ ≤ _ := ih.2 _ (List.mem_cons_self _ _)
      · exact ih.2 t (List.mem_cons_of_mem _ ht3)

theorem pyInsert_perm {α : Type} (le : α → α → Bool) (a : α) :
    ∀ l : List α, (pyInsert le a l).Perm (a :: l)
  | [] => List.Perm.refl _
  | b :: bs => by
    unfold pyInsert
    split
    · exact List.Perm.refl _
    · exact ((pyInsert_perm le a bs).cons b).trans (List.Perm.swap a b bs)

theorem pySorted_perm {α : Type} (le : α → α → Bool) :
    ∀ l : List α, (pySorted le l).Perm l
  | [] => List.Perm.refl _
  | a :: rest => by
    unfold pySorted
    exact (pyInsert_perm le a (pySorted le rest)).trans ((pySorted_perm le rest).cons a)

theorem foldl_or_eq_any {α : Type} (p : α → Bool) :
    ∀ (l : List α) (b : Bool), l.foldl (fun acc t => acc || p t) b = (b || l.any p)
  | [], b => by simp
  | a :: l, b => by
    simp only [List.foldl_cons, List.any_cons]
    rw [foldl_or_eq_any p l (b || p a)]
    simp [Bool.or_assoc]

/-! ## Claim theorems -/

/-- Claim C1 (code bug): the spec's two-tier revision rule says a record
with no numeric `version` label but a name ending `.v7` resolves to
revision 7.  The code's fallback `int(PurePath(name).suffix.lstrip("v"))`
can never succeed: `PurePath.suffix` keeps its leading dot, which
`lstrip("v")` does not remove, so `int` always raises `ValueError` and the
fallback yields 0 — here evaluated on the failing input `c1secret`
(name `sh.helm.release.v1.demo.v7`, no `version` label), and in general:
without an all-digits `version` label the resolved revision is always 0,
whatever the name. -/
theorem secret_version_two_tier :
    secret_version c1secret = 0
    ∧ ∀ sec : Secret,
        pyIsDigit ((dict_get sec.metadata.labels "version").getD "") = false →
        secret_version sec = 0 :=
  ⟨by decide, fun sec h => secret_version_fallback_zero sec h⟩

/-- Witness for `secret_version_two_tier`: the general part applied to a
concrete unlabeled Secret with legacy name `demo.v3`. -/
theorem secret_version_two_tier_witness : secret_version c1secretB = 0 :=
  secret_version_two_tier.2 c1secretB (by decide)

/-- Claim C2 (counterexample): the claim says corrupt gzip-magic bytes are
never passed through to the parsing stage.  But `_try_decompress` swallows
the caught decompression failure and returns the corrupt bytes unchanged:
on `1f 8b 00` (a truncated stream, on which the real `gzip.decompress`
raises the caught `EOFError`, modelled by the stand-in decompressor that
fails on every input) the result is the input itself, not an error. -/
theorem try_decompress_passes_through :
    try_decompress (fun _ => GzRes.errCaught) [31, 139, 0] = Except.ok [31, 139, 0] := rfl

/-- Claim C2 (amended): for every input whose base64-decoded bytes begin
with the gzip magic `1f 8b` but fail to decompress, the corrupt bytes are
passed through unchanged to the parsing stage (second conjunct); decoding
nevertheless always fails, because any byte string beginning `1f 8b` is
invalid UTF-8 (first conjunct), so `json.loads` raises the uncaught
`UnicodeDecodeError` (hypothesis `hjson`, true of the real parser), and an
uncaught-type decompression failure (`zlib.error`) likewise aborts decoding
(third conjunct) — the failure surfaces as an uncaught exception, not the
`RuntimeError` decode error. -/
theorem decode_bad_gzip_always_fails (c : Codec)
    (hjson : ∀ bs : List Nat, bs.take 2 = [31, 139] → c.jsonLoads bs = JsonRes.errOther) :
    (∀ l : List Nat, validUtf8 (31 :: 139 :: l) = false)
    ∧ (∀ (gz : List Nat → GzRes) (d : List Nat), d.take 2 = [31, 139] →
        gz d = GzRes.errCaught → try_decompress gz d = Except.ok d)
    ∧ (∀ encoded d : List Nat, b64decode encoded = Option.some d → d.take 2 = [31, 139] →
        (∀ out, c.gzipDecompress d ≠ GzRes.ok out) →
        ∃ e, decode_release_payload c encoded = Except.error e) := by
  refine ⟨fun l => validUtf8_magic l, ?_, ?_⟩
  · intro gz d hm hg
    unfold try_decompress
    rw [if_pos hm, hg]
  · intro encoded d hb hm hg
    rcases hgz : c.gzipDecompress d with out | _ | _
    · exact absurd hgz (hg out)
    · refine ⟨PyExc.unicodeError, ?_⟩
      simp only [decode_release_payload, hb, try_decompress, if_pos hm, hgz, hjson d hm]
    · refine ⟨PyExc.zlibError, ?_⟩
      simp only [decode_release_payload, hb, try_decompress, if_pos hm, hgz]

/-- Witness for `decode_bad_gzip_always_fails`: concrete stand-in codec
`c2codec` and the payload encoding the corrupt bytes `1f 8b 00`. -/
theorem decode_bad_gzip_always_fails_witness :
    ∃ e, decode_release_payload c2codec (b64encode [31, 139, 0]) = Except.error e :=
  (decode_bad_gzip_always_fails c2codec
      (fun bs h => by simp [c2codec, h])).2.2 (b64encode [31, 139, 0]) [31, 139, 0]
    (by decide) (by decide) (fun out h => by simp [c2codec] at h)

/-- Claim C4: unwrapping is bounded to exactly two levels.  First conjunct:
a payload whose first parse fails with `JSONDecodeError` but whose one extra
round of (base64-decode, conditional decompress, parse) succeeds, decodes to
that value.  Second conjunct: when both parse attempts fail with
`JSONDecodeError`, decoding fails with the `RuntimeError` decode error even
though a third round of unwrapping would have succeeded (hypotheses name the
successful third level explicitly) — it is never attempted. -/
theorem decode_two_level_bound :
    (∀ (c : Codec) (encoded d raw d2 raw2 : List Nat) (v : PyVal),
        b64decode encoded = Option.some d →
        try_decompress c.gzipDecompress d = Except.ok raw →
        c.jsonLoads raw = JsonRes.errDecode →
        b64decode raw = Option.some d2 →
        try_decompress c.gzipDecompress d2 = Except.ok raw2 →
        c.jsonLoads raw2 = JsonRes.ok v →
        decode_release_payload c encoded = Except.ok v)
    ∧ ∀ (c : Codec) (encoded d raw d2 raw2 d3 raw3 : List Nat) (v3 : PyVal),
        b64decode encoded = Option.some d →
        try_decompress c.gzipDecompress d = Except.ok raw →
        c.jsonLoads raw = JsonRes.errDecode →
        b64decode raw = Option.some d2 →
        try_decompress c.gzipDecompress d2 = Except.ok raw2 →
        c.jsonLoads raw2 = JsonRes.errDecode →
        b64decode raw2 = Option.some d3 →
        try_decompress c.gzipDecompress d3 = Except.ok raw3 →
        c.jsonLoads raw3 = JsonRes.ok v3 →
        decode_release_payload c encoded = Except.error PyExc.runtimeError := by
  constructor
  · intro c encoded d raw d2 raw2 v hb htd hj1 hb2 htd2 hj2
    simp only [decode_release_payload, hb, htd, hj1, hb2, htd2, hj2]
  · intro c encoded d raw d2 raw2 d3 raw3 v3 hb htd hj1 hb2 htd2 hj2 _ _ _
    simp only [decode_release_payload, hb, htd, hj1, hb2, htd2, hj2]

/-- Witness for `decode_two_level_bound`: with the stand-in codec `c4codec`
(parses exactly the JSON bytes `"0"`), the double-base64 payload decodes,
and the triple-base64 payload fails with the `RuntimeError` even though its
third unwrap level is exactly the parseable bytes. -/
theorem decode_two_level_bound_witness :
    decode_release_payload c4codec (b64encode (b64encode c4json)) = Except.ok (PyVal.int 0)
    ∧ decode_release_payload c4codec (b64encode (b64encode (b64encode c4json)))
        = Except.error PyExc.runtimeError :=
  ⟨decode_two_level_bound.1 c4codec (b64encode (b64encode c4json)) (b64encode c4json)
      (b64encode c4json) c4json c4json (PyVal.int 0)
      (by decide) rfl rfl (by decide) rfl rfl,
    decode_two_level_bound.2 c4codec (b64encode (b64encode (b64encode c4json)))
      (b64encode (b64encode c4json)) (b64encode (b64encode c4json))
      (b64encode c4json) (b64encode c4json) c4json c4json (PyVal.int 0)
      (by decide) rfl rfl (by decide) rfl rfl (by decide) rfl rfl⟩

/-- Claim C5: round-trip.  For every integer `N` and manifest string `M`,
the record `{"version": N, "manifest": M}`, serialized (`dumps`, with the
real serializer's properties as hypotheses: parsing inverts it and its
output is genuine bytes not starting with the gzip magic) and base64-encoded
once, decodes back to exactly that record — and likewise when the serialized
bytes are gzip-compressed before the base64 step (`gzBytes` being any
compressed form: genuine bytes, starting with the gzip magic as real gzip
output always does, decompressing back to the serialized bytes). -/
theorem decode_release_payload_roundtrip (N : Int) (M : String) (c : Codec)
    (dumps : PyVal → List Nat)
    (hbytes : ∀ b ∈ dumps (relRec N M), b < 256)
    (hmag : (dumps (relRec N M)).take 2 ≠ [31, 139])
    (hjson : c.jsonLoads (dumps (relRec N M)) = JsonRes.ok (relRec N M)) :
    decode_release_payload c (b64encode (dumps (relRec N M))) = Except.ok (relRec N M)
    ∧ ∀ gzBytes : List Nat, (∀ b ∈ gzBytes, b < 256) → gzBytes.take 2 = [31, 139] →
        c.gzipDecompress gzBytes = GzRes.ok (dumps (relRec N M)) →
        decode_release_payload c (b64encode gzBytes) = Except.ok (relRec N M) := by
  constructor
  · simp only [decode_release_payload, b64decode_b64encode _ hbytes, try_decompress,
      if_neg hmag, hjson]
  · intro gzB hb hm hg
    simp only [decode_release_payload, b64decode_b64encode _ hb, try_decompress,
      if_pos hm, hg, hjson]

/-- Witness for `decode_release_payload_roundtrip`: `N = 1`, `M = "x"`, the
concrete serialized bytes of the record and the stand-in codec `c5codec`,
in both the plain-base64 and the gzip-then-base64 variant. -/
theorem decode_release_payload_roundtrip_witness :
    decode_release_payload c5codec (b64encode (c5dumps (relRec 1 "x")))
      = Except.ok (relRec 1 "x")
    ∧ decode_release_payload c5codec (b64encode c5gzB) = Except.ok (relRec 1 "x") :=
  have H := decode_release_payload_roundtrip 1 "x" c5codec c5dumps
    (by decide) (by decide) rfl
  ⟨H.1, H.2 c5gzB (by decide) (by decide) rfl⟩

/-- Claim C3 (code bug): the spec says a document lacking full metadata —
including one whose `metadata` field is not a mapping — is silently skipped.
But `doc.get("metadata", {})` only defaults a *missing* key: on the failing
input (a mapping document whose `metadata` value is the string `"oops"`),
`meta.get("name")` raises `AttributeError` and the whole extraction aborts
instead of skipping the document. -/
theorem manifest_objects_attribute_error :
    manifest_objects [c3doc] "default" = Except.error PyExc.attributeError := rfl

/-- Claim C6: with a non-empty candidate list and no requested revision,
`find_release_secret` returns (never `None`, never a crash — Python `max`
keeps the first of tied maxima) a candidate whose resolved revision is
maximal among all candidates. -/
theorem find_release_secret_latest (candidates : List Secret) (h : candidates ≠ []) :
    ∃ sec, find_release_secret candidates Option.none = Option.some sec ∧
      sec ∈ candidates ∧ ∀ t ∈ candidates, secret_version t ≤ secret_version sec := by
  match candidates, h with
  | x :: xs, _ =>
    have hspec := foldl_maxStep_spec secret_version xs x
    refine ⟨xs.foldl (maxStep secret_version) x, ?_, hspec.1, hspec.2⟩
    simp [find_release_secret, pymax]

/-- Witness for `find_release_secret_latest`: two labeled candidates with
revisions 1 and 5. -/
theorem find_release_secret_latest_witness :
    ∃ sec, find_release_secret [secV1, secV5] Option.none = Option.some sec ∧
      sec ∈ [secV1, secV5] ∧
      ∀ t ∈ [secV1, secV5], secret_version t ≤ secret_version sec :=
  find_release_secret_latest [secV1, secV5] (List.cons_ne_nil _ _)

/-- Claim C7: with an explicitly requested revision `r` (any integer,
including 0), `find_release_secret` returns a candidate resolving exactly to
`r` when one exists, and `None` (NotFound) when none does — never a nearest
or latest fallback. -/
theorem find_release_secret_exact (candidates : List Secret) (r : Int) :
    ((∃ sec ∈ candidates, secret_version sec = r) →
      ∃ sec, find_release_secret candidates (Option.some r) = Option.some sec ∧
        sec ∈ candidates ∧ secret_version sec = r)
    ∧ ((∀ sec ∈ candidates, secret_version sec ≠ r) →
      find_release_secret candidates (Option.some r) = Option.none) := by
  constructor
  · rintro ⟨s0, hs0, hv0⟩
    match candidates, hs0 with
    | x :: xs, hs0 =>
      have hex : ∃ t, t ∈ x :: xs ∧ (secret_version t == r) = true :=
        ⟨s0, hs0, by simp [hv0]⟩
      have hsome := List.find?_isSome.mpr hex
      obtain ⟨sec, hfind⟩ := Option.isSome_iff_exists.mp hsome
      refine ⟨sec, ?_, List.mem_of_find?_eq_some hfind, by simpa using List.find?_some hfind⟩
      simp [find_release_secret, hfind]
  · intro hall
    match candidates with
    | [] => rfl
    | x :: xs =>
      have hnone : (x :: xs).find? (fun sec => secret_version sec == r) = Option.none :=
        List.find?_eq_none.mpr (fun t ht => by simpa using hall t ht)
      simp [find_release_secret, hnone]

/-- Witness for `find_release_secret_exact`: among revisions 1 and 5,
requesting revision 5 finds the matching Secret, requesting revision 9
yields NotFound. -/
theorem find_release_secret_exact_witness :
    (∃ sec, find_release_secret [secV1, secV5] (Option.some 5) = Option.some sec ∧
      sec ∈ [secV1, secV5] ∧ secret_version sec = 5)
    ∧ find_release_secret [secV1, secV5] (Option.some 9) = Option.none :=
  ⟨(find_release_secret_exact [secV1, secV5] 5).1 ⟨secV5, by simp, by decide⟩,
    (find_release_secret_exact [secV1, secV5] 9).2 (by decide)⟩

/-- Claim C8: manifest extraction on the spec's three scenarios, for every
default namespace `ns`: a lone ConfigMap document without a namespace yields
exactly the identity `("v1", "ConfigMap", ns, "cm1")`; a document missing
`kind` yields no identity; three documents of which one is malformed (does
not parse as a mapping) yield exactly the two identities of the valid ones
(the explicit `namespace: prod` is kept); and an empty
`metadata.namespace` is replaced by the default namespace. -/
theorem manifest_objects_examples (ns : String) :
    manifest_objects [c8cmDoc] ns =
      Except.ok [(PyVal.str "v1", PyVal.str "ConfigMap", PyVal.str ns, PyVal.str "cm1")]
    ∧ manifest_objects [c8noKindDoc] ns = Except.ok []
    ∧ manifest_objects [c8cmDoc, c8badDoc, c8svcDoc] ns =
      Except.ok [(PyVal.str "v1", PyVal.str "ConfigMap", PyVal.str ns, PyVal.str "cm1"),
        (PyVal.str "v1", PyVal.str "Service", PyVal.str "prod", PyVal.str "svc1")]
    ∧ manifest_objects [c8emptyNsDoc] ns =
      Except.ok [(PyVal.str "v1", PyVal.str "Secret", PyVal.str ns, PyVal.str "s1")] :=
  ⟨rfl, rfl, rfl, rfl⟩

/-- Witness for `manifest_objects_examples`: the scenarios at the concrete
default namespace `"default"`. -/
theorem manifest_objects_examples_witness :
    manifest_objects [c8cmDoc] "default" =
      Except.ok [(PyVal.str "v1", PyVal.str "ConfigMap", PyVal.str "default", PyVal.str "cm1")]
    ∧ manifest_objects [c8noKindDoc] "default" = Except.ok []
    ∧ manifest_objects [c8cmDoc, c8badDoc, c8svcDoc] "default" =
      Except.ok [(PyVal.str "v1", PyVal.str "ConfigMap", PyVal.str "default", PyVal.str "cm1"),
        (PyVal.str "v1", PyVal.str "Service", PyVal.str "prod", PyVal.str "svc1")]
    ∧ manifest_objects [c8emptyNsDoc] "default" =
      Except.ok [(PyVal.str "v1", PyVal.str "Secret", PyVal.str "default", PyVal.str "s1")] :=
  manifest_objects_examples "default"

/-- Claim C9: for every declared identity list and existence oracle, the
report's rows mark exactly the declared identities, each live precisely when
the oracle reports it (first two conjuncts, in both directions), and the
"none found live" warning is printed iff the oracle reports every declared
identity absent. -/
theorem main_report_rows_and_warning {α : Type} (le : α → α → Bool)
    (object_exists : α → Bool) (ids : List α) :
    (∀ p ∈ (main_report le object_exists ids).1, p.1 ∈ ids ∧ p.2 = object_exists p.1)
    ∧ (∀ t ∈ ids, (t, object_exists t) ∈ (main_report le object_exists ids).1)
    ∧ ((main_report le object_exists ids).2 = true ↔
        ∀ t ∈ ids, object_exists t = false) := by
  refine ⟨?_, ?_, ?_⟩
  · intro p hp
    simp only [main_report, List.mem_map] at hp
    obtain ⟨t, ht, hpt⟩ := hp
    rw [← hpt]
    exact ⟨(pySorted_perm le ids).mem_iff.mp ht, rfl⟩
  · intro t ht
    simp only [main_report, List.mem_map]
    exact ⟨t, (pySorted_perm le ids).mem_iff.mpr ht, rfl⟩
  · simp only [main_report]
    rw [foldl_or_eq_any]
    simp only [Bool.false_or, Bool.not_eq_true']
    rw [List.any_eq_false]
    constructor
    · intro hall t ht
      have := hall t ((pySorted_perm le ids).mem_iff.mpr ht)
      simpa using this
    · intro hall t ht
      have := hall t ((pySorted_perm le ids).mem_iff.mp ht)
      simpa using this

/-- Witness for `main_report_rows_and_warning`: on identities
`["a", "b", "c"]` with only `"a"` live, the row `("a", true)` appears; with
every identity absent, the warning is printed. -/
theorem main_report_rows_and_warning_witness :
    (("a", true) ∈ (main_report (fun _ _ => true) (fun s : String => s == "a")
        ["a", "b", "c"]).1)
    ∧ (main_report (fun _ _ => true) (fun _ : String => false) ["a", "b", "c"]).2 = true :=
  ⟨(main_report_rows_and_warning (fun _ _ => true) (fun s : String => s == "a")
        ["a", "b", "c"]).2.1 "a" (by simp),
    (main_report_rows_and_warning (fun _ _ => true) (fun _ : String => false)
        ["a", "b", "c"]).2.2.mpr (fun t _ => rfl)⟩

/-- Claim C10: when manifest extraction yields zero identities, the
"none of the declared resources were found live" warning is printed —
`exists_any` stays `False` over the empty loop, so the all-absent condition
holds vacuously and the release is reported as possibly purged, for any
oracle whatsoever. -/
theorem main_report_empty_manifest_warns (le : Ident → Ident → Bool)
    (object_exists : Ident → Bool) (docs : List PyVal) (ns : String) (ids : List Ident)
    (h1 : manifest_objects docs ns = Except.ok ids) (h2 : ids = []) :
    (main_report le object_exists ids).2 = true := by
  subst h2
  rfl

/-- Witness for `main_report_empty_manifest_warns`: a manifest whose one
document has no `metadata.name` extracts to zero identities, and the warning
is printed even with an oracle that reports everything as existing. -/
theorem main_report_empty_manifest_warns_witness :
    (main_report (fun _ _ => true) (fun _ => true) ([] : List Ident)).2 = true :=
  main_report_empty_manifest_warns (fun _ _ => true) (fun _ => true) c10docs "default" [] rfl rfl

end HelmChecker
